import Mathlib

/-!
Verification of the mister_morph embedded cron scheduler.

This file gives a shallow embedding, in Lean 4, of the scheduler core of the
repository: the cron expression engine (`src/scheduler/cronexpr.go`), the
schedule resolver (`nextRunAt`), and the scheduler's state transitions
(`enqueueJobIfDue`, `recoverOrphanedRuns`, outcome classification in
`executeRun`, `truncateString`).

Modelling conventions:
- Go `int64`/`int` values are modelled as `Int` (no arithmetic in this code
  approaches the 64-bit boundary, so wrap-around is irrelevant).
- Timestamps are UTC Unix seconds as `Int`, exactly as the Go code stores them
  (`time.Time` values in the source are created from whole Unix seconds and
  only ever inspected at second granularity).
- Go strings are modelled as Lean `String` wherever the source only splits,
  trims, lowercases and compares them.  `truncateString` in the source
  operates on the raw UTF-8 byte representation (`len(s)` and `s[:max]` count
  bytes and may split a multi-byte character), so it is modelled on the byte
  list of the string (`List Nat` of byte values).
- The ASCII/Latin-1 fragment of Go's `unicode.IsSpace` and `strings.ToLower`
  is modelled; every string the scheduler treats specially ("forbid",
  "queue", cron fields, status constants) is ASCII, so the fragment is
  faithful on all inputs that matter.
-/

namespace MisterMorph

/-- Character-level model of Go `unicode.IsSpace`, restricted to the
ASCII/Latin-1 range: space, tab, newline, vertical tab, form feed, carriage
return, NEL (U+0085) and NBSP (U+00A0). -/
def goIsSpace (c : Char) : Bool :=
  c = ' ' || c = '\t' || c = '\n' || c = '\x0b' || c = '\x0c' || c = '\r' ||
  c.toNat = 0x85 || c.toNat = 0xA0

/-- Model of Go `strings.TrimSpace`: drop leading and trailing whitespace. -/
def goTrimSpace (s : String) : String :=
  String.mk (((s.toList.dropWhile goIsSpace).reverse.dropWhile goIsSpace).reverse)

/-- Model of Go `strings.ToLower` on the ASCII fragment (`Char.toLower`
lowercases exactly the ASCII letters, as Go does on ASCII input). -/
def goToLower (s : String) : String :=
  String.mk (s.toList.map Char.toLower)

/-- Accumulator-style worker for `goFields`: `cur` holds the current word
reversed. -/
def splitFieldsAux : List Char → List Char → List String
  | [], cur => if cur.isEmpty then [] else [String.mk cur.reverse]
  | c :: cs, cur =>
    if goIsSpace c then
      if cur.isEmpty then splitFieldsAux cs []
      else String.mk cur.reverse :: splitFieldsAux cs []
    else splitFieldsAux cs (c :: cur)

/-- Model of Go `strings.Fields`: split around runs of whitespace, dropping
empty pieces. -/
def goFields (s : String) : List String :=
  splitFieldsAux s.toList []

/-- Accumulator-style worker for `goSplitComma`. -/
def splitCommaAux : List Char → List Char → List String
  | [], cur => [String.mk cur.reverse]
  | c :: cs, cur =>
    if c = ',' then String.mk cur.reverse :: splitCommaAux cs []
    else splitCommaAux cs (c :: cur)

/-- Model of Go `strings.Split(s, ",")`: empty pieces are kept. -/
def goSplitComma (s : String) : List String :=
  splitCommaAux s.toList []

/-- Digit-run parser used by `goAtoi`. -/
def parseDigits : List Char → Nat → Option Nat
  | [], acc => some acc
  | c :: cs, acc =>
    if c.isDigit then parseDigits cs (acc * 10 + (c.toNat - 48)) else none

/-- Model of Go `strconv.Atoi`: optional sign followed by a nonempty digit
run.  (Go additionally errors on 64-bit overflow; in every call site of this
program an overflowing value is also out of the field's 0..59-style range, so
both implementations reject it, merely with different messages.) -/
def goAtoi (s : String) : Option Int :=
  match s.toList with
  | [] => none
  | '-' :: rest =>
    if rest.isEmpty then none else (parseDigits rest 0).map (fun n => -(n : Int))
  | '+' :: rest =>
    if rest.isEmpty then none else (parseDigits rest 0).map (fun n => (n : Int))
  | cs => (parseDigits cs 0).map (fun n => (n : Int))

/-- UTF-8 encoding of a single character as a list of byte values. -/
def utf8CharBytes (c : Char) : List Nat :=
  let n := c.toNat
  if n < 0x80 then [n]
  else if n < 0x800 then [0xC0 + n / 64, 0x80 + n % 64]
  else if n < 0x10000 then
    [0xE0 + n / 4096, 0x80 + (n / 64) % 64, 0x80 + n % 64]
  else
    [0xF0 + n / 262144, 0x80 + (n / 4096) % 64, 0x80 + (n / 64) % 64, 0x80 + n % 64]

/-- UTF-8 byte representation of a string: the representation Go's `len` and
slicing operate on. -/
def utf8Bytes (s : String) : List Nat :=
  (s.toList.map utf8CharBytes).flatten

/-- Number of characters (runes) encoded by a UTF-8 byte sequence: the count
of bytes that are not continuation bytes, i.e. Go `utf8.RuneCountInString`
on well-formed input. -/
def utf8CharCount (s : List Nat) : Nat :=
  (s.filter (fun b => decide (b < 0x80 ∨ 0xC0 ≤ b))).length

/-- Model of `truncateString` (scheduler core): Go `len(s)` is the byte
length and `s[:max]` keeps the first `max` bytes, so the model works on the
UTF-8 byte list. -/
def truncateString (s : List Nat) (max : Int) : List Nat :=
  if max ≤ 0 ∨ (s.length : Int) ≤ max then s else s.take max.toNat

/-! ### Cron expression engine (src/scheduler/cronexpr.go) -/

/-- Model of `valueSet` from cronexpr.go.  The Go `map[int]` member set is
modelled as a `List Int` queried by membership (`has` is the only consumer,
so multiplicity and order are irrelevant). -/
structure ValueSet where
  vmin : Int
  vmax : Int
  all : Bool
  val : List Int
deriving Repr, DecidableEq

/-- Model of `(*valueSet).has`.  (The Go nil-receiver guard is unreachable:
every `valueSet` the program builds is non-nil.) -/
def ValueSet.has (s : ValueSet) (v : Int) : Bool :=
  s.all || s.val.contains v

/-- Fuel-driven worker for `rangeStep`: the Go loop
`for v := lo; v <= max; v += step`. -/
def stepValues (lo vmax step : Int) : Nat → List Int
  | 0 => []
  | fuel + 1 => if lo ≤ vmax then lo :: stepValues (lo + step) vmax step fuel else []

/-- Values produced by a `*/N` step field over `[lo, vmax]`.  The fuel
`(vmax - lo).toNat + 1` bounds the iteration count for every `step ≥ 1`
(the only way `rangeStep` is called). -/
def rangeStep (lo vmax step : Int) : List Int :=
  stepValues lo vmax step ((vmax - lo).toNat + 1)

/-- Worker for `parseField`'s comma-list loop.  Mirrors the Go loop body:
empty pieces are skipped; a bare `*` piece immediately yields the all-set;
`*/N` adds a stepped range; a bare integer is range-checked and added.
Returns `(all, values)`. -/
def parseParts (vmin vmax : Int) : List String → List Int → Except String (Bool × List Int)
  | [], acc => .ok (false, acc)
  | p :: rest, acc =>
    let q := goTrimSpace p
    if q = "" then parseParts vmin vmax rest acc
    else if q = "*" then .ok (true, [])
    else
      match q.toList with
      | '*' :: '/' :: stepChars =>
        match goAtoi (String.mk stepChars) with
        | none => .error ("invalid step " ++ q)
        | some step =>
          if step ≤ 0 then .error ("invalid step " ++ q)
          else parseParts vmin vmax rest (acc ++ rangeStep vmin vmax step)
      | _ =>
        match goAtoi q with
        | none => .error ("invalid value " ++ q)
        | some n =>
          if n < vmin ∨ n > vmax then .error ("value out of range " ++ q)
          else parseParts vmin vmax rest (acc ++ [n])

/-- Model of `parseField` from cronexpr.go. -/
def parseField (tok : String) (vmin vmax : Int) : Except String ValueSet :=
  let tok := goTrimSpace tok
  if tok = "" then .error "empty field"
  else if tok = "*" then .ok { vmin := vmin, vmax := vmax, all := true, val := [] }
  else
    match parseParts vmin vmax (goSplitComma tok) [] with
    | .error e => .error e
    | .ok (true, _) => .ok { vmin := vmin, vmax := vmax, all := true, val := [] }
    | .ok (false, vals) =>
      if vals.isEmpty then .error ("no values parsed from " ++ tok)
      else .ok { vmin := vmin, vmax := vmax, all := false, val := vals }

/-- Model of `parseFieldWithAny`: like `parseField`, also reporting whether
the (trimmed) token is literally `*`. -/
def parseFieldWithAny (tok : String) (vmin vmax : Int) :
    Except String (ValueSet × Bool) :=
  match parseField tok vmin vmax with
  | .error e => .error e
  | .ok vs => .ok (vs, goTrimSpace tok = "*")

/-- Model of `cronExpr`. -/
structure CronExpr where
  minute : ValueSet
  hour : ValueSet
  dom : ValueSet
  month : ValueSet
  dow : ValueSet
  domAny : Bool
  dowAny : Bool
deriving Repr, DecidableEq

/-- Model of `parseCronExpr`. -/
def parseCronExpr (expr : String) : Except String CronExpr :=
  match goFields (goTrimSpace expr) with
  | [f0, f1, f2, f3, f4] =>
    match parseField f0 0 59 with
    | .error e => .error ("minute: " ++ e)
    | .ok minv =>
    match parseField f1 0 23 with
    | .error e => .error ("hour: " ++ e)
    | .ok hourv =>
    match parseFieldWithAny f2 1 31 with
    | .error e => .error ("dom: " ++ e)
    | .ok (domv, domAny) =>
    match parseField f3 1 12 with
    | .error e => .error ("month: " ++ e)
    | .ok monthv =>
    match parseFieldWithAny f4 0 6 with
    | .error e => .error ("dow: " ++ e)
    | .ok (dowv, dowAny) =>
      .ok { minute := minv, hour := hourv, dom := domv, month := monthv,
            dow := dowv, domAny := domAny, dowAny := dowAny }
  | _ => .error ("invalid cron expression (expected 5 fields): " ++ expr)

/-! ### UTC calendar decomposition of Unix timestamps

The Go code inspects candidate times through `time.Time` accessors
(`Minute`, `Hour`, `Day`, `Month`, `Weekday`) in UTC.  For a `time.Time`
built from whole Unix seconds those accessors are pure arithmetic on the
proleptic Gregorian calendar; the functions below compute them directly
from the Unix second count, using floor division (`Int.fdiv`/`Int.emod`),
which agrees with Go's internal absolute-time arithmetic for every
representable instant. -/

/-- Minute-of-hour of a UTC Unix timestamp (Go `t.Minute()`). -/
def minuteOf (t : Int) : Int := (t.fdiv 60).emod 60

/-- Hour-of-day of a UTC Unix timestamp (Go `t.Hour()`). -/
def hourOf (t : Int) : Int := (t.fdiv 3600).emod 24

/-- Whole days since the Unix epoch (floor). -/
def epochDays (t : Int) : Int := t.fdiv 86400

/-- Day-of-week of a UTC Unix timestamp, Sunday = 0 (Go `t.Weekday()`);
1970-01-01 was a Thursday (= 4). -/
def weekdayOf (t : Int) : Int := (epochDays t + 4).emod 7

/-- Civil (year, month, day) from days since the Unix epoch, on the
proleptic Gregorian calendar (the standard days-to-civil algorithm; equal to
Go's `time.Time.Date` in UTC). -/
def civilFromDays (z0 : Int) : Int × Int × Int :=
  let z := z0 + 719468
  let era := z.fdiv 146097
  let doe := z - era * 146097
  let yoe := (doe - doe.fdiv 1460 + doe.fdiv 36524 - doe.fdiv 146096).fdiv 365
  let y := yoe + era * 400
  let doy := doe - (365 * yoe + yoe.fdiv 4 - yoe.fdiv 100)
  let mp := (5 * doy + 2).fdiv 153
  let d := doy - (153 * mp + 2).fdiv 5 + 1
  let m := mp + (if mp < 10 then 3 else -9)
  ((if m ≤ 2 then y + 1 else y), m, d)

/-- Month (1-12) of a UTC Unix timestamp (Go `t.Month()`). -/
def monthOf (t : Int) : Int := (civilFromDays (epochDays t)).2.1

/-- Day-of-month (1-31) of a UTC Unix timestamp (Go `t.Day()`). -/
def dayOf (t : Int) : Int := (civilFromDays (epochDays t)).2.2

/-- Day-field acceptance of `cronExpr.next` (cronexpr.go lines 73-89):
with both day fields restricted the candidate passes if either matches
(standard cron OR rule); otherwise each restricted field must match. -/
def dayMatches (e : CronExpr) (t : Int) : Bool :=
  let domMatch := e.dom.has (dayOf t)
  let dowMatch := e.dow.has (weekdayOf t)
  if !e.domAny && !e.dowAny then domMatch || dowMatch
  else (e.domAny || domMatch) && (e.dowAny || dowMatch)

/-- Full per-candidate acceptance test of the loop body of `cronExpr.next`:
minute, hour and month must match, then the day rule applies. -/
def cronMatches (e : CronExpr) (t : Int) : Bool :=
  e.minute.has (minuteOf t) && e.hour.has (hourOf t) &&
  e.month.has (monthOf t) && dayMatches e t

/-- Fuel-driven model of the minute-stepping search loop of
`cronExpr.next`: starting at `t` (always minute-aligned), test successive
minutes, returning the first match; fuel exhaustion is the loop's
`t.Before(limit)` exit. -/
def nextSearch (e : CronExpr) : Nat → Int → Option Int
  | 0, _ => none
  | fuel + 1, t => if cronMatches e t then some t else nextSearch e fuel (t + 60)

/-- Iterations of the search loop of `cronExpr.next`: one per minute of the
366-day window (`366 * 24 * 60`). -/
def searchWindowMinutes : Nat := 527040

/-- Model of `cronExpr.next`:
`start := after.Add(time.Minute).Truncate(time.Minute)` is the least
minute-aligned instant strictly after `after` (`(after.fdiv 60 + 1) * 60`),
and the loop scans one minute at a time while `t < start + 366 days`.
Returns `none` where Go returns the `NoMatchFound` error. -/
def cronNext (e : CronExpr) (after : Int) : Option Int :=
  nextSearch e searchWindowMinutes ((after.fdiv 60 + 1) * 60)

/-! ### Scheduler data model (db/models/cron_job.go, db/models/cron_run.go)

The gorm bookkeeping columns `created_at`/`updated_at` on runs are set by
the ORM and never read by the scheduler, so they are omitted from the run
model; `updated_at` on jobs is kept because each run snapshots it. -/

/-- Run status constants from the scheduler core. -/
def StatusQueued : String := "queued"

/-- See `StatusQueued`. -/
def StatusRunning : String := "running"

/-- See `StatusQueued`. -/
def StatusSuccess : String := "succeeded"

/-- See `StatusQueued`. -/
def StatusFailed : String := "failed"

/-- See `StatusQueued`. -/
def StatusCanceled : String := "canceled"

/-- See `StatusQueued`. -/
def StatusTimedOut : String := "timed_out"

/-- See `StatusQueued`. -/
def StatusSkipped : String := "skipped"

/-- The single overlap policy with dedicated handling. -/
def overlapForbid : String := "forbid"

/-- Default execution deadline (`10 * time.Minute`), in seconds. -/
def defaultTimeoutSecs : Int := 600

/-- Model of `models.CronJob`. -/
structure CronJob where
  id : String
  name : String
  enabled : Bool
  schedule : Option String
  intervalSeconds : Option Int
  task : String
  runOnce : Bool
  notifyTelegramChatID : Option Int
  provider : Option String
  model : Option String
  timeoutSeconds : Option Int
  overlapPolicy : String
  lastRunAt : Option Int
  nextRunAt : Option Int
  updatedAt : Int
deriving Repr, DecidableEq

/-- Model of `models.CronRun`. -/
structure CronRun where
  id : String
  jobId : String
  jobUpdatedAt : Int
  status : String
  scheduledFor : Int
  startedAt : Option Int
  finishedAt : Option Int
  attempt : Int
  error : Option String
  resultSummary : Option String
deriving Repr, DecidableEq

/-! ### Schedule resolver (`nextRunAt` in the scheduler package) -/

/-- Model of `nextRunAt(job, afterUnix)`: a set (non-blank) cron expression
takes priority and delegates to the cron engine, propagating parse errors
and mapping the engine's no-match failure to its error; otherwise a
positive `interval_seconds` yields `afterUnix + interval`; otherwise the
job is unschedulable. -/
def nextRunAtF (job : CronJob) (afterUnix : Int) : Except String Int :=
  match job.schedule with
  | some s =>
    if goTrimSpace s ≠ "" then
      match parseCronExpr s with
      | .error e => .error e
      | .ok expr =>
        match cronNext expr afterUnix with
        | none => .error "no matching time within search window"
        | some t => .ok t
    else
      match job.intervalSeconds with
      | some n => if n > 0 then .ok (afterUnix + n) else .error "job has neither schedule nor interval_seconds"
      | none => .error "job has neither schedule nor interval_seconds"
  | none =>
    match job.intervalSeconds with
    | some n => if n > 0 then .ok (afterUnix + n) else .error "job has neither schedule nor interval_seconds"
    | none => .error "job has neither schedule nor interval_seconds"

/-! ### Enqueue transaction (`Scheduler.enqueueJobIfDue`) -/

/-- Error message recorded on a skipped run. -/
def overlapSkipMessage : String := "overlap_forbid: prior run still running"

/-- Result of the enqueue transaction on one job.
`noEffect` models the guard aborts (job disabled, no `next_run_at`, or fire
time still in the future): the transaction commits with no writes.
`txError` models a rolled-back transaction returning an error (in
particular the schedule-resolution failure: the `enabled=false` write the
code issues inside the transaction is undone by the rollback).
`done job run q` models a committed transaction: the job row now reads
`job`, the run `run` was inserted, and `q` is the `queued` flag that
triggers the worker wake. -/
inductive EnqueueOutcome where
  | noEffect
  | txError (msg : String)
  | done (job : CronJob) (run : CronRun) (queuedFlag : Bool)
deriving Repr, DecidableEq

/-- Model of the body of `Scheduler.enqueueJobIfDue` for job `job` with
existing runs `runs` at tick time `now`; `newRunId` stands for the
UUID gorm generates for the inserted run. -/
def enqueueJobIfDue (job : CronJob) (runs : List CronRun) (now : Int)
    (newRunId : String) : EnqueueOutcome :=
  if !job.enabled then .noEffect
  else
    match job.nextRunAt with
    | none => .noEffect
    | some scheduledFor =>
      if scheduledFor > now then .noEffect
      else
        let updated : Except String CronJob :=
          if job.runOnce then
            .ok { job with enabled := false, lastRunAt := some scheduledFor,
                           nextRunAt := none }
          else
            match nextRunAtF job scheduledFor with
            | .error e => .error ("compute next: " ++ e)
            | .ok nxt =>
              .ok { job with lastRunAt := some scheduledFor, nextRunAt := some nxt }
        match updated with
        | .error e => .txError e
        | .ok job' =>
          let runningCount :=
            runs.countP (fun r => r.jobId == job.id && r.status == StatusRunning)
          let policy0 := goToLower (goTrimSpace job.overlapPolicy)
          let policy := if policy0 = "" then overlapForbid else policy0
          if runningCount > 0 ∧ policy = overlapForbid then
            .done job'
              { id := newRunId, jobId := job.id, jobUpdatedAt := job.updatedAt,
                status := StatusSkipped, scheduledFor := scheduledFor,
                startedAt := none, finishedAt := none, attempt := 1,
                error := some overlapSkipMessage, resultSummary := none }
              false
          else
            .done job'
              { id := newRunId, jobId := job.id, jobUpdatedAt := job.updatedAt,
                status := StatusQueued, scheduledFor := scheduledFor,
                startedAt := none, finishedAt := none, attempt := 1,
                error := none, resultSummary := none }
              true

/-! ### Orphan recovery (`Scheduler.recoverOrphanedRuns`) -/

/-- Per-row effect of the recovery UPDATE: a `running` run becomes `failed`
with the fixed message and `finished_at = now`; any other row is untouched
by the `WHERE status = running` filter. -/
def recoverOrphanedRun (now : Int) (r : CronRun) : CronRun :=
  if r.status = StatusRunning then
    { r with status := StatusFailed, finishedAt := some now,
             error := some "process restarted" }
  else r

/-- Model of `Scheduler.recoverOrphanedRuns`, run at startup before the
scheduling loop and the workers are spawned: the single UPDATE applies the
per-row effect to every run row. -/
def recoverOrphanedRuns (now : Int) (runs : List CronRun) : List CronRun :=
  runs.map (recoverOrphanedRun now)

/-! ### Worker outcome classification (`Scheduler.executeRun` lines 427-442) -/

/-- State of a Go context's `Err()` at classification time. -/
inductive CtxErr where
  | noErr
  | deadlineExceeded
  | canceled
deriving Repr, DecidableEq

/-- Model of Go `time.Duration.String()` for positive whole-second
durations (the only durations the scheduler formats: a per-job
`timeout_seconds > 0` or the 600 s default). -/
def goDurationString (secs : Int) : String :=
  if secs ≤ 0 then "0s"
  else
    let s := secs.emod 60
    let m := (secs.fdiv 60).emod 60
    let h := secs.fdiv 3600
    if h > 0 then toString h ++ "h" ++ toString m ++ "m" ++ toString s ++ "s"
    else if m > 0 then toString m ++ "m" ++ toString s ++ "s"
    else toString s ++ "s"

/-- Fixed message recorded for a timed-out run with effective timeout
`timeoutSecs` (in seconds). -/
def timeoutMessage (timeoutSecs : Int) : String :=
  "timeout: run exceeded " ++ goDurationString timeoutSecs ++ " deadline"

/-- Model of the outcome-classification block of `Scheduler.executeRun`
(lines 427-442): given the runner's returned error (as UTF-8 bytes, `none`
for success), the bounded run context's `Err()`, the parent context's
`Err()`, the effective timeout and the configured error cap, produce the
terminal status and the error text.  The later re-truncation block (lines
449-452) is modelled separately by `finalizeErr`. -/
def classifyOutcome (runErr : Option (List Nat)) (runCtxErr parentCtxErr : CtxErr)
    (timeoutSecs maxErrorChars : Int) : String × Option (List Nat) :=
  match runErr with
  | none => (StatusSuccess, none)
  | some e =>
    if runCtxErr = .deadlineExceeded then
      (StatusTimedOut, some (utf8Bytes (timeoutMessage timeoutSecs)))
    else if runCtxErr = .canceled ∨ parentCtxErr = .canceled then
      (StatusCanceled, some (utf8Bytes "canceled"))
    else
      (StatusFailed, some (truncateString e maxErrorChars))

/-- Model of the post-classification truncation block of
`Scheduler.executeRun` (lines 444-452) for the error field. -/
def finalizeErr (errStr : Option (List Nat)) (maxErrorChars : Int) : Option (List Nat) :=
  match errStr with
  | none => none
  | some e => some (truncateString e maxErrorChars)

/-- Model of the post-classification truncation block of
`Scheduler.executeRun` (lines 444-447) for the result summary. -/
def finalizeSummary (summary : Option (List Nat)) (maxSummaryChars : Int) :
    Option (List Nat) :=
  match summary with
  | none => none
  | some s => some (truncateString s maxSummaryChars)

/-! ### Concrete sample data for witnesses and counterexamples -/

/-- Sample job builder: an enabled job with the given schedule fields. -/
def mkJob (id : String) (schedule : Option String) (interval : Option Int)
    (runOnce : Bool) (policy : String) (nextAt : Option Int) : CronJob :=
  { id := id, name := id, enabled := true, schedule := schedule,
    intervalSeconds := interval, task := "task", runOnce := runOnce,
    notifyTelegramChatID := none, provider := none, model := none,
    timeoutSeconds := none, overlapPolicy := policy, lastRunAt := none,
    nextRunAt := nextAt, updatedAt := 7 }

/-- Sample run in status `running` for job `jid`. -/
def mkRunningRun (id jid : String) : CronRun :=
  { id := id, jobId := jid, jobUpdatedAt := 7, status := StatusRunning,
    scheduledFor := 40, startedAt := some 41, finishedAt := none,
    attempt := 1, error := none, resultSummary := none }

/-- Sample terminal run for job `jid`. -/
def mkDoneRun (id jid : String) : CronRun :=
  { id := id, jobId := jid, jobUpdatedAt := 7, status := StatusSuccess,
    scheduledFor := 10, startedAt := some 11, finishedAt := some 12,
    attempt := 1, error := none, resultSummary := none }

/-- The compiled form of `"0 9 * * *"` (daily at 09:00 UTC). -/
def ex0900 : CronExpr :=
  { minute := { vmin := 0, vmax := 59, all := false, val := [0] },
    hour := { vmin := 0, vmax := 23, all := false, val := [9] },
    dom := { vmin := 1, vmax := 31, all := true, val := [] },
    month := { vmin := 1, vmax := 12, all := true, val := [] },
    dow := { vmin := 0, vmax := 6, all := true, val := [] },
    domAny := true, dowAny := true }

/-- An expression with both day fields restricted: day-of-month 3, Sunday. -/
def exDayOr : CronExpr :=
  { minute := { vmin := 0, vmax := 59, all := true, val := [] },
    hour := { vmin := 0, vmax := 23, all := true, val := [] },
    dom := { vmin := 1, vmax := 31, all := false, val := [3] },
    month := { vmin := 1, vmax := 12, all := true, val := [] },
    dow := { vmin := 0, vmax := 6, all := false, val := [0] },
    domAny := false, dowAny := false }

/-- The C3 scenario: an interval job whose overlap policy is `queue`. -/
def queuePolicyJob : CronJob := mkJob "j1" none (some 60) false "queue" (some 100)

/-- The C3 scenario's pre-existing run set: one run still `running`. -/
def queuePolicyRuns : List CronRun := [mkRunningRun "r0" "j1"]

/-! ## Theorems -/

/-! ### Shared arithmetic and search lemmas -/

/-- Two minute-aligned instants differ by at least a whole minute. -/
theorem aligned_step (a b : Int) (ha : a % 60 = 0) (hb : b % 60 = 0)
    (h : a < b) : a + 60 ≤ b := by
  have h1 : (60 : Int) ∣ b - a :=
    dvd_sub (Int.dvd_of_emod_eq_zero hb) (Int.dvd_of_emod_eq_zero ha)
  have h2 : (60 : Int) ≤ b - a := Int.le_of_dvd (by omega) h1
  omega

/-- The search start of `cronExpr.next` is minute-aligned. -/
theorem start_aligned (after : Int) : ((after.fdiv 60 + 1) * 60) % 60 = 0 := by
  rw [Int.fdiv_eq_ediv _ (by norm_num)]
  omega

/-- The search start of `cronExpr.next` is strictly after `after`. -/
theorem start_gt (after : Int) : after < (after.fdiv 60 + 1) * 60 := by
  rw [Int.fdiv_eq_ediv _ (by norm_num)]
  omega

/-- The search start is the least minute-aligned instant strictly after
`after`. -/
theorem aligned_ge_start (after v : Int) (hv : v % 60 = 0) (h : after < v) :
    (after.fdiv 60 + 1) * 60 ≤ v := by
  rw [Int.fdiv_eq_ediv _ (by norm_num)]
  omega

/-- First-match characterisation of the search loop, success case: a result
is aligned, within the scanned window, matching, and nothing earlier in the
scan matches. -/
theorem nextSearch_some_spec (e : CronExpr) :
    ∀ (fuel : Nat) (t u : Int), t % 60 = 0 → nextSearch e fuel t = some u →
      u % 60 = 0 ∧ t ≤ u ∧ u < t + 60 * fuel ∧ cronMatches e u = true ∧
      ∀ v, t ≤ v → v < u → v % 60 = 0 → cronMatches e v = false := by
  intro fuel
  induction fuel with
  | zero => intro t u ht h; simp [nextSearch] at h
  | succ n ih =>
    intro t u ht h
    unfold nextSearch at h
    by_cases hm : cronMatches e t
    · rw [if_pos hm] at h
      obtain rfl : t = u := by injection h
      refine ⟨ht, le_refl _, by push_cast; omega, hm, ?_⟩
      intro v hv1 hv2 _
      omega
    · rw [if_neg hm] at h
      have ht60 : (t + 60) % 60 = 0 := by omega
      obtain ⟨h1, h2, h3, h4, h5⟩ := ih (t + 60) u ht60 h
      refine ⟨h1, by omega, by push_cast at h3 ⊢; omega, h4, ?_⟩
      intro v hv1 hv2 hv3
      rcases eq_or_lt_of_le hv1 with heq | hlt
      · subst heq
        exact Bool.eq_false_iff.mpr hm
      · exact h5 v (aligned_step t v ht hv3 hlt) hv2 hv3

/-- First-match characterisation of the search loop, failure case: nothing
in the scanned window matches. -/
theorem nextSearch_none_spec (e : CronExpr) :
    ∀ (fuel : Nat) (t : Int), t % 60 = 0 → nextSearch e fuel t = none →
      ∀ v, t ≤ v → v < t + 60 * fuel → v % 60 = 0 → cronMatches e v = false := by
  intro fuel
  induction fuel with
  | zero => intro t ht h v hv1 hv2 hv3; push_cast at hv2; omega
  | succ n ih =>
    intro t ht h
    unfold nextSearch at h
    by_cases hm : cronMatches e t
    · rw [if_pos hm] at h; exact absurd h (by simp)
    · rw [if_neg hm] at h
      have ht60 : (t + 60) % 60 = 0 := by omega
      intro v hv1 hv2 hv3
      rcases eq_or_lt_of_le hv1 with heq | hlt
      · subst heq
        exact Bool.eq_false_iff.mpr hm
      · exact ih (t + 60) ht60 h v (aligned_step t v ht hv3 hlt)
          (by push_cast at hv2 ⊢; omega) hv3

/-- C2: for every compiled 5-field cron expression `e` and every instant
`after`, `cronNext e after` either returns the earliest minute-aligned
timestamp strictly greater than `after` (the first candidate being `after`
rounded up to the next whole minute) that satisfies all field constraints,
or returns `none` (Go: the `NoMatchFound` error) when no minute-aligned
timestamp within the 366-day forward search window
`((after.fdiv 60 + 1) * 60 + 31622400` bound, `366 * 86400 = 31622400`)
satisfies them. -/
theorem cronNext_spec (e : CronExpr) (after : Int) :
    (∀ u, cronNext e after = some u →
      u % 60 = 0 ∧ after < u ∧ cronMatches e u = true ∧
      u < (after.fdiv 60 + 1) * 60 + 31622400 ∧
      ∀ v, v % 60 = 0 → after < v → v < u → cronMatches e v = false) ∧
    (cronNext e after = none →
      ∀ v, v % 60 = 0 → after < v → v < (after.fdiv 60 + 1) * 60 + 31622400 →
        cronMatches e v = false) := by
  constructor
  · intro u h
    obtain ⟨h1, h2, h3, h4, h5⟩ :=
      nextSearch_some_spec e searchWindowMinutes ((after.fdiv 60 + 1) * 60) u
        (start_aligned after) h
    have hgt : after < u := lt_of_lt_of_le (start_gt after) h2
    refine ⟨h1, hgt, h4, ?_, ?_⟩
    · have : (searchWindowMinutes : Int) = 527040 := by decide
      omega
    · intro v hv1 hv2 hv3
      exact h5 v (aligned_ge_start after v hv1 hv2) hv3 hv1
  · intro h v hv1 hv2 hv3
    refine nextSearch_none_spec e searchWindowMinutes ((after.fdiv 60 + 1) * 60)
      (start_aligned after) h v (aligned_ge_start after v hv1 hv2) ?_ hv1
    have : (searchWindowMinutes : Int) = 527040 := by decide
    omega

/-- C2 witness: the spec's own test vector.  `"0 9 * * *"` compiles to
`ex0900`, and stepping from 2026-02-03T08:59:59Z (Unix 1770109199) lands on
2026-02-03T09:00:00Z (Unix 1770109200): minute-aligned, strictly later,
and matching. -/
theorem cronNext_spec_witness :
    parseCronExpr "0 9 * * *" = .ok ex0900 ∧
    cronNext ex0900 1770109199 = some 1770109200 ∧
    (1770109200 : Int) % 60 = 0 ∧ (1770109199 : Int) < 1770109200 ∧
    cronMatches ex0900 1770109200 = true :=
  have h : cronNext ex0900 1770109199 = some 1770109200 := by decide
  have hs := (cronNext_spec ex0900 1770109199).1 1770109200 h
  ⟨by rfl, h, hs.1, hs.2.1, hs.2.2.1⟩

/-- C7: at any candidate whose minute, hour and month constraints are met,
the day rule of `cronExpr.next` combines the two day fields with standard
cron semantics: both restricted → logical OR; exactly one restricted → that
field alone decides and the `*` field imposes no constraint. -/
theorem cron_day_or_rule (e : CronExpr) (t : Int)
    (hmin : e.minute.has (minuteOf t) = true)
    (hhour : e.hour.has (hourOf t) = true)
    (hmonth : e.month.has (monthOf t) = true) :
    (e.domAny = false → e.dowAny = false →
      (cronMatches e t = true ↔
        (e.dom.has (dayOf t) = true ∨ e.dow.has (weekdayOf t) = true))) ∧
    (e.domAny = false → e.dowAny = true →
      (cronMatches e t = true ↔ e.dom.has (dayOf t) = true)) ∧
    (e.domAny = true → e.dowAny = false →
      (cronMatches e t = true ↔ e.dow.has (weekdayOf t) = true)) := by
  refine ⟨fun h1 h2 => ?_, fun h1 h2 => ?_, fun h1 h2 => ?_⟩ <;>
    simp [cronMatches, dayMatches, hmin, hhour, hmonth, h1, h2]

/-- C7 witness: `exDayOr` restricts day-of-month to 3 and day-of-week to
Sunday; 2026-02-03T00:00Z (Unix 1770076800) is a Tuesday the 3rd, so only
the day-of-month side of the OR holds, and the candidate matches. -/
theorem cron_day_or_rule_witness : cronMatches exDayOr 1770076800 = true :=
  ((cron_day_or_rule exDayOr 1770076800 (by decide) (by decide) (by decide)).1
    (by decide) (by decide)).mpr (Or.inl (by decide))

/-- C8: the schedule resolver.  With a set (non-blank) cron expression it
returns exactly the cron engine's answer, propagating parse errors and the
engine's no-match failure; with no usable expression and a positive
interval it returns `after + interval`; with neither it fails with the
neither-field-populated error. -/
theorem nextRunAt_spec (job : CronJob) (after : Int) :
    (∀ s, job.schedule = some s → goTrimSpace s ≠ "" →
      (∀ m, parseCronExpr s = .error m → nextRunAtF job after = .error m) ∧
      (∀ e, parseCronExpr s = .ok e →
        (∀ u, cronNext e after = some u → nextRunAtF job after = .ok u) ∧
        (cronNext e after = none →
          nextRunAtF job after = .error "no matching time within search window"))) ∧
    ((job.schedule = none ∨ ∃ s, job.schedule = some s ∧ goTrimSpace s = "") →
      (∀ n, job.intervalSeconds = some n → 0 < n →
        nextRunAtF job after = .ok (after + n)) ∧
      ((job.intervalSeconds = none ∨ ∃ n, job.intervalSeconds = some n ∧ n ≤ 0) →
        nextRunAtF job after = .error "job has neither schedule nor interval_seconds")) := by
  constructor
  · intro s hs hne
    constructor
    · intro m hparse
      simp [nextRunAtF, hs, hne, hparse]
    · intro e hparse
      constructor
      · intro u hnext
        simp [nextRunAtF, hs, hne, hparse, hnext]
      · intro hnone
        simp [nextRunAtF, hs, hne, hparse, hnone]
  · intro hsched
    constructor
    · intro n hn hpos
      rcases hsched with h | ⟨s, hs, hblank⟩
      · simp [nextRunAtF, h, hn, hpos, show ¬ n ≤ 0 by omega]
      · simp [nextRunAtF, hs, hblank, hn, hpos, show ¬ n ≤ 0 by omega]
    · intro hint
      rcases hsched with h | ⟨s, hs, hblank⟩
      · rcases hint with hn | ⟨n, hn, hle⟩
        · simp [nextRunAtF, h, hn]
        · simp [nextRunAtF, h, hn, show ¬ n > 0 by omega]
      · rcases hint with hn | ⟨n, hn, hle⟩
        · simp [nextRunAtF, hs, hblank, hn]
        · simp [nextRunAtF, hs, hblank, hn, show ¬ n > 0 by omega]

/-- C8 witness: the spec's interval test vector — an interval-60 job
resolved from `after = 1000` fires at 1060; and a blank-schedule job with
no interval fails. -/
theorem nextRunAt_spec_witness :
    nextRunAtF (mkJob "j8" none (some 60) false "forbid" (some 100)) 1000 =
      .ok 1060 ∧
    nextRunAtF (mkJob "j8e" none none false "forbid" (some 100)) 1000 =
      .error "job has neither schedule nor interval_seconds" :=
  ⟨by
    have h := ((nextRunAt_spec (mkJob "j8" none (some 60) false "forbid" (some 100))
      1000).2 (Or.inl (by decide))).1 60 (by decide) (by decide)
    simpa using h,
   by
    have h := ((nextRunAt_spec (mkJob "j8e" none none false "forbid" (some 100))
      1000).2 (Or.inl (by decide))).2 (Or.inl (by decide))
    simpa using h⟩

/-- C10: when a job has both a non-blank cron expression and a positive
`interval_seconds`, the resolver silently uses the cron expression and
ignores the interval: its answer is the same as for the identical job with
no interval at all, and a successful cron computation is returned as-is. -/
theorem nextRunAt_both_set (job : CronJob) (after : Int) (s : String) (n : Int)
    (hs : job.schedule = some s) (hne : goTrimSpace s ≠ "")
    (hn : job.intervalSeconds = some n) (hpos : 0 < n) :
    nextRunAtF job after = nextRunAtF { job with intervalSeconds := none } after ∧
    (∀ e u, parseCronExpr s = .ok e → cronNext e after = some u →
      nextRunAtF job after = .ok u) := by
  constructor
  · simp [nextRunAtF, hs, hne]
  · intro e u hparse hnext
    simp [nextRunAtF, hs, hne, hparse, hnext]

/-- C10 witness: a job carrying both `"* * * * *"` and interval 60, asked
from `after = 30`: the cron engine answers 60 (the next whole minute), not
the interval sum 90, and the interval-free variant agrees. -/
theorem nextRunAt_both_set_witness :
    nextRunAtF (mkJob "jX" (some "* * * * *") (some 60) false "forbid" (some 1)) 30 =
      .ok 60 :=
  (nextRunAt_both_set (mkJob "jX" (some "* * * * *") (some 60) false "forbid" (some 1))
    30 "* * * * *" 60 (by rfl) (by decide) (by rfl) (by decide)).2
    { minute := { vmin := 0, vmax := 59, all := true, val := [] },
      hour := { vmin := 0, vmax := 23, all := true, val := [] },
      dom := { vmin := 1, vmax := 31, all := true, val := [] },
      month := { vmin := 1, vmax := 12, all := true, val := [] },
      dow := { vmin := 0, vmax := 6, all := true, val := [] },
      domAny := true, dowAny := true }
    60 (by rfl) (by decide)

/-- C4: outcome classification in `executeRun` consults the execution
context's `Err()` before falling back to a generic failure.  When the task
runner returns an error: a deadline-exceeded run context yields
`timed_out` with the fixed message naming the effective timeout; a canceled
run context (or canceled parent context) — in particular an in-flight
execution whose context is canceled — yields `canceled` once the runner
returns; with no context error, the run is `failed` with the error text
truncated to the configured cap. -/
theorem classifyOutcome_spec (runErr : Option (List Nat))
    (runCtxErr parentCtxErr : CtxErr) (timeoutSecs maxErrorChars : Int)
    (e : List Nat) (hErr : runErr = some e) :
    (runCtxErr = .deadlineExceeded →
      classifyOutcome runErr runCtxErr parentCtxErr timeoutSecs maxErrorChars =
        (StatusTimedOut, some (utf8Bytes (timeoutMessage timeoutSecs)))) ∧
    (runCtxErr ≠ .deadlineExceeded →
      (runCtxErr = .canceled ∨ parentCtxErr = .canceled) →
      classifyOutcome runErr runCtxErr parentCtxErr timeoutSecs maxErrorChars =
        (StatusCanceled, some (utf8Bytes "canceled"))) ∧
    (runCtxErr = .noErr → parentCtxErr ≠ .canceled →
      classifyOutcome runErr runCtxErr parentCtxErr timeoutSecs maxErrorChars =
        (StatusFailed, some (truncateString e maxErrorChars))) := by
  subst hErr
  refine ⟨fun h1 => ?_, fun h1 h2 => ?_, fun h1 h2 => ?_⟩
  · simp [classifyOutcome, h1]
  · simp [classifyOutcome, h1, h2]
  · simp [classifyOutcome, h1, h2]

/-- C4 witness: a runner error under a canceled bounded context is
classified `canceled`; the same error with no context error is classified
`failed` with the (here untruncated) error text. -/
theorem classifyOutcome_spec_witness :
    classifyOutcome (some (utf8Bytes "boom")) .canceled .noErr 600 2000 =
      (StatusCanceled, some (utf8Bytes "canceled")) ∧
    classifyOutcome (some (utf8Bytes "boom")) .noErr .noErr 600 2000 =
      (StatusFailed, some (truncateString (utf8Bytes "boom") 2000)) :=
  ⟨(classifyOutcome_spec (some (utf8Bytes "boom")) .canceled .noErr 600 2000
      (utf8Bytes "boom") rfl).2.1 (by decide) (Or.inl rfl),
   (classifyOutcome_spec (some (utf8Bytes "boom")) .noErr .noErr 600 2000
      (utf8Bytes "boom") rfl).2.2 rfl (by decide)⟩

/-- C5: the startup recovery sweep (executed in `Start` before any worker
goroutine is spawned) rewrites exactly the rows in status `running`: each
becomes `failed` with the fixed error "process restarted" and
`finished_at = now`; every row in any other status is unchanged. -/
theorem recoverOrphanedRuns_spec (now : Int) (runs : List CronRun) (i : Nat)
    (r : CronRun) (h : runs[i]? = some r) :
    (r.status = StatusRunning →
      (recoverOrphanedRuns now runs)[i]? =
        some { r with status := StatusFailed, finishedAt := some now,
                      error := some "process restarted" }) ∧
    (r.status ≠ StatusRunning → (recoverOrphanedRuns now runs)[i]? = some r) := by
  constructor <;> intro hs <;>
    simp [recoverOrphanedRuns, List.getElem?_map, h, recoverOrphanedRun, hs]

/-- C5 witness: recovering the two-run store `[running, succeeded]` at time
42 fails the orphan with the fixed message and leaves the terminal run
untouched. -/
theorem recoverOrphanedRuns_spec_witness :
    (recoverOrphanedRuns 42 [mkRunningRun "rA" "j5", mkDoneRun "rB" "j5"])[0]? =
      some { (mkRunningRun "rA" "j5") with
               status := StatusFailed,
               finishedAt := some 42,
               error := some "process restarted" } ∧
    (recoverOrphanedRuns 42 [mkRunningRun "rA" "j5", mkDoneRun "rB" "j5"])[1]? =
      some (mkDoneRun "rB" "j5") :=
  ⟨(recoverOrphanedRuns_spec 42 [mkRunningRun "rA" "j5", mkDoneRun "rB" "j5"] 0
      (mkRunningRun "rA" "j5") (by rfl)).1 (by decide),
   (recoverOrphanedRuns_spec 42 [mkRunningRun "rA" "j5", mkDoneRun "rB" "j5"] 1
      (mkDoneRun "rB" "j5") (by rfl)).2 (by decide)⟩

/-- C9 counterexample: the configured maxima bound BYTES, not characters.
The one-character string "é" occupies two UTF-8 bytes; with a configured
maximum of 1, its character count (1) is within the maximum, yet
`truncateString` alters it (to a lone lead byte), refuting "strings at or
under the maximum, counted in characters, are stored unchanged". -/
theorem truncateString_char_claim_false :
    utf8CharCount (utf8Bytes "é") = 1 ∧
    utf8CharCount (utf8Bytes "é") ≤ 1 ∧
    truncateString (utf8Bytes "é") 1 ≠ utf8Bytes "é" ∧
    truncateString (utf8Bytes "é") 1 = [0xC3] := by
  refine ⟨by decide, by decide, ?_, by decide⟩
  decide

/-- C9 (amended): with a positive configured maximum, a string whose BYTE
length exceeds the maximum is stored truncated to exactly the maximum
number of bytes (never longer, possibly splitting a multi-byte character),
and a string of at most the maximum byte length is stored unchanged. -/
theorem truncateString_spec (s : List Nat) (max : Int) (hpos : 0 < max) :
    ((s.length : Int) > max → ((truncateString s max).length : Int) = max) ∧
    ((s.length : Int) ≤ max → truncateString s max = s) := by
  refine ⟨fun h => ?_, fun h => ?_⟩
  · have hcond : ¬(max ≤ 0 ∨ (s.length : Int) ≤ max) := by omega
    simp only [truncateString, if_neg hcond, List.length_take]
    omega
  · have hcond : max ≤ 0 ∨ (s.length : Int) ≤ max := Or.inr h
    simp only [truncateString, if_pos hcond]

/-- C9 witness: cap 2 truncates the three-byte string `[1, 2, 3]` to
exactly two bytes and leaves the one-byte string `[7]` unchanged. -/
theorem truncateString_spec_witness :
    (((truncateString [1, 2, 3] 2).length : Int) = 2) ∧
    truncateString [7] 2 = [7] :=
  ⟨(truncateString_spec [1, 2, 3] 2 (by decide)).1 (by decide),
   (truncateString_spec [7] 2 (by decide)).2 (by decide)⟩

/-- Helper: a job's running-run count inside the enqueue transaction is
positive exactly when some stored run of that job is in status `running`. -/
theorem runningCount_pos (job : CronJob) (runs : List CronRun)
    (h : ∃ r ∈ runs, r.jobId = job.id ∧ r.status = StatusRunning) :
    0 < runs.countP (fun r => r.jobId == job.id && r.status == StatusRunning) := by
  obtain ⟨r, hmem, hjid, hst⟩ := h
  exact List.countP_pos_iff.mpr ⟨r, hmem, by simp [hjid, hst]⟩

/-- C1: in the enqueue transaction of a due `overlap_policy = forbid` job
with at least one of its runs still `running`, the inserted run has status
`skipped` (not `queued`) and carries the explanatory message, and the job
row update is still applied: `last_run_at` becomes the fire time and
`next_run_at` advances to the resolver's next fire time (or, for
`run_once`, the job is disabled with `next_run_at` cleared), so the
schedule advances despite the skip. -/
theorem enqueue_overlap_forbid (job : CronJob) (runs : List CronRun)
    (now : Int) (newRunId : String) (t : Int)
    (hen : job.enabled = true)
    (hnext : job.nextRunAt = some t)
    (hdue : t ≤ now)
    (hpolicy : job.overlapPolicy = overlapForbid)
    (hrun : ∃ r ∈ runs, r.jobId = job.id ∧ r.status = StatusRunning)
    (hsched : job.runOnce = true ∨ ∃ nxt, nextRunAtF job t = .ok nxt) :
    ∃ job' run, enqueueJobIfDue job runs now newRunId = .done job' run false ∧
      run.status = StatusSkipped ∧
      run.status ≠ StatusQueued ∧
      run.error = some overlapSkipMessage ∧
      run.scheduledFor = t ∧
      run.jobId = job.id ∧
      job'.lastRunAt = some t ∧
      (job.runOnce = true → job'.enabled = false ∧ job'.nextRunAt = none) ∧
      (job.runOnce = false →
        ∀ nxt, nextRunAtF job t = .ok nxt → job'.nextRunAt = some nxt) := by
  have hcnt := runningCount_pos job runs hrun
  have hpol : (goToLower (goTrimSpace job.overlapPolicy)) = overlapForbid := by
    rw [hpolicy]; decide
  by_cases ho : job.runOnce = true
  · have heq : enqueueJobIfDue job runs now newRunId =
        .done { job with enabled := false, lastRunAt := some t, nextRunAt := none }
          { id := newRunId, jobId := job.id, jobUpdatedAt := job.updatedAt,
            status := StatusSkipped, scheduledFor := t, startedAt := none,
            finishedAt := none, attempt := 1, error := some overlapSkipMessage,
            resultSummary := none } false := by
      simp [enqueueJobIfDue, hen, hnext, ho, hpol, hcnt, show ¬ t > now from by omega]
    refine ⟨_, _, heq, rfl, ?_, rfl, rfl, rfl, rfl, fun _ => ⟨rfl, rfl⟩,
      fun hcon => absurd ho (by simp [hcon])⟩
    show StatusSkipped ≠ StatusQueued
    decide
  · have ho' : job.runOnce = false := by simpa using ho
    rcases hsched with hcon | ⟨nxt, hnxt⟩
    · exact absurd hcon ho
    · have heq : enqueueJobIfDue job runs now newRunId =
          .done { job with lastRunAt := some t, nextRunAt := some nxt }
            { id := newRunId, jobId := job.id, jobUpdatedAt := job.updatedAt,
              status := StatusSkipped, scheduledFor := t, startedAt := none,
              finishedAt := none, attempt := 1, error := some overlapSkipMessage,
              resultSummary := none } false := by
        simp [enqueueJobIfDue, hen, hnext, ho', hpol, hcnt, hnxt,
          show ¬ t > now from by omega]
      refine ⟨_, _, heq, rfl, ?_, rfl, rfl, rfl, rfl,
        fun hcon => absurd hcon ho, fun _ nxt2 hnxt2 => ?_⟩
      · show StatusSkipped ≠ StatusQueued
        decide
      · rw [hnxt] at hnxt2
        injection hnxt2 with h2
        simp [h2]

/-- C1 witness: a concrete due forbid-policy interval job with one of its
runs still running is skipped while its schedule advances. -/
theorem enqueue_overlap_forbid_witness :
    ∃ job' run,
      enqueueJobIfDue (mkJob "j1" none (some 60) false "forbid" (some 100))
        [mkRunningRun "r0" "j1"] 100 "r1" = .done job' run false ∧
      run.status = StatusSkipped ∧ job'.lastRunAt = some 100 := by
  obtain ⟨job', run, heq, h1, _, _, _, _, h6, _⟩ :=
    enqueue_overlap_forbid (mkJob "j1" none (some 60) false "forbid" (some 100))
      [mkRunningRun "r0" "j1"] 100 "r1" 100 (by decide) (by decide) (by decide)
      (by decide) ⟨mkRunningRun "r0" "j1", by decide, by decide, by decide⟩
      (Or.inr ⟨160, by rfl⟩)
  exact ⟨job', run, heq, h1, h6⟩

/-- C6: the enqueue transaction of a due `run_once` job disables the job
and clears its `next_run_at` (with `last_run_at` set to the fire time) in
the same transaction that creates the run, while the created run itself is
only `queued` (or `skipped` under overlap). -/
theorem enqueue_run_once (job : CronJob) (runs : List CronRun)
    (now : Int) (newRunId : String) (t : Int)
    (hen : job.enabled = true)
    (hnext : job.nextRunAt = some t)
    (hdue : t ≤ now)
    (honce : job.runOnce = true) :
    ∃ run q, enqueueJobIfDue job runs now newRunId =
        .done { job with enabled := false, lastRunAt := some t, nextRunAt := none }
          run q ∧
      (run.status = StatusQueued ∨ run.status = StatusSkipped) ∧
      run.scheduledFor = t := by
  by_cases hc : 0 < runs.countP (fun r => r.jobId == job.id && r.status == StatusRunning)
      ∧ (if goToLower (goTrimSpace job.overlapPolicy) = "" then overlapForbid
         else goToLower (goTrimSpace job.overlapPolicy)) = overlapForbid
  · refine ⟨{ id := newRunId, jobId := job.id, jobUpdatedAt := job.updatedAt,
              status := StatusSkipped, scheduledFor := t, startedAt := none,
              finishedAt := none, attempt := 1,
              error := some overlapSkipMessage,
              resultSummary := none }, false, ?_, Or.inr rfl, rfl⟩
    simp [enqueueJobIfDue, hen, hnext, honce, hc.1, hc.2,
      show ¬ t > now from by omega]
  · refine ⟨{ id := newRunId, jobId := job.id, jobUpdatedAt := job.updatedAt,
              status := StatusQueued, scheduledFor := t, startedAt := none,
              finishedAt := none, attempt := 1, error := none,
              resultSummary := none }, true, ?_, Or.inl rfl, rfl⟩
    simp only [enqueueJobIfDue, hen, hnext, honce, eq_self_iff_true, if_true,
      Bool.not_true, Bool.false_eq_true, if_false,
      if_neg (show ¬ t > now from by omega)]
    rw [if_neg hc]

/-- C6 witness: a due run-once job with no prior runs is disabled with
`next_run_at` cleared while its new run is merely queued. -/
theorem enqueue_run_once_witness :
    ∃ run q,
      enqueueJobIfDue (mkJob "j6" none none true "forbid" (some 50)) [] 100 "r6" =
        .done { (mkJob "j6" none none true "forbid" (some 50)) with
                  enabled := false, lastRunAt := some 50, nextRunAt := none }
          run q ∧
      (run.status = StatusQueued ∨ run.status = StatusSkipped) ∧
      run.scheduledFor = 50 :=
  enqueue_run_once (mkJob "j6" none none true "forbid" (some 50)) [] 100 "r6" 50
    (by decide) (by decide) (by decide) (by decide)

/-- C3 counterexample: a due job with `overlap_policy = "queue"` and one of
its runs still `running` is NOT treated like `forbid`: the enqueue
transaction records the new run as `queued`, not `skipped` (the code only
skips when the normalized policy equals "forbid", and only normalizes the
empty policy to "forbid"). -/
theorem overlap_queue_policy_counterexample :
    queuePolicyJob.overlapPolicy = "queue" ∧
    (∃ r ∈ queuePolicyRuns, r.jobId = queuePolicyJob.id ∧
      r.status = StatusRunning) ∧
    enqueueJobIfDue queuePolicyJob queuePolicyRuns 100 "r1" =
      .done { queuePolicyJob with lastRunAt := some 100, nextRunAt := some 160 }
        { id := "r1", jobId := "j1", jobUpdatedAt := 7, status := StatusQueued,
          scheduledFor := 100, startedAt := none, finishedAt := none,
          attempt := 1, error := none, resultSummary := none } true ∧
    StatusQueued ≠ StatusSkipped :=
  ⟨rfl, ⟨mkRunningRun "r0" "j1", by decide, by decide, by decide⟩, by rfl, by decide⟩

/-- C3 (amended): in the enqueue transaction, an `overlap_policy` whose
trimmed, lowercased value is neither `forbid` nor empty (for example
`queue` or `replace`) is NOT treated like `forbid`: even when a prior run
of the job is still `running`, the new run is inserted with status
`queued`; only `forbid` — or a blank policy, which defaults to `forbid` —
produces `skipped`. -/
theorem enqueue_nonforbid_policy_queues (job : CronJob) (runs : List CronRun)
    (now : Int) (newRunId : String) (t : Int)
    (hen : job.enabled = true)
    (hnext : job.nextRunAt = some t)
    (hdue : t ≤ now)
    (hpol1 : goToLower (goTrimSpace job.overlapPolicy) ≠ overlapForbid)
    (hpol2 : goToLower (goTrimSpace job.overlapPolicy) ≠ "")
    (hrun : ∃ r ∈ runs, r.jobId = job.id ∧ r.status = StatusRunning)
    (hsched : job.runOnce = true ∨ ∃ nxt, nextRunAtF job t = .ok nxt) :
    ∃ job' run, enqueueJobIfDue job runs now newRunId = .done job' run true ∧
      run.status = StatusQueued ∧ run.status ≠ StatusSkipped := by
  by_cases ho : job.runOnce = true
  · have heq : enqueueJobIfDue job runs now newRunId =
        .done { job with enabled := false, lastRunAt := some t, nextRunAt := none }
          { id := newRunId, jobId := job.id, jobUpdatedAt := job.updatedAt,
            status := StatusQueued, scheduledFor := t, startedAt := none,
            finishedAt := none, attempt := 1, error := none,
            resultSummary := none } true := by
      simp [enqueueJobIfDue, hen, hnext, ho, hpol1, hpol2,
        show ¬ t > now from by omega]
    refine ⟨_, _, heq, rfl, ?_⟩
    show StatusQueued ≠ StatusSkipped
    decide
  · have ho' : job.runOnce = false := by simpa using ho
    rcases hsched with hcon | ⟨nxt, hnxt⟩
    · exact absurd hcon ho
    · have heq : enqueueJobIfDue job runs now newRunId =
          .done { job with lastRunAt := some t, nextRunAt := some nxt }
            { id := newRunId, jobId := job.id, jobUpdatedAt := job.updatedAt,
              status := StatusQueued, scheduledFor := t, startedAt := none,
              finishedAt := none, attempt := 1, error := none,
              resultSummary := none } true := by
        simp [enqueueJobIfDue, hen, hnext, ho', hpol1, hpol2, hnxt,
          show ¬ t > now from by omega]
      refine ⟨_, _, heq, rfl, ?_⟩
      show StatusQueued ≠ StatusSkipped
      decide

/-- C3 amended-claim witness: the `queue`-policy scenario of the
counterexample, via the general statement. -/
theorem enqueue_nonforbid_policy_queues_witness :
    ∃ job' run,
      enqueueJobIfDue queuePolicyJob queuePolicyRuns 100 "r1" =
        .done job' run true ∧
      run.status = StatusQueued ∧ run.status ≠ StatusSkipped :=
  enqueue_nonforbid_policy_queues queuePolicyJob queuePolicyRuns 100 "r1" 100
    (by decide) (by decide) (by decide) (by decide) (by decide)
    ⟨mkRunningRun "r0" "j1", by decide, by decide, by decide⟩
    (Or.inr ⟨160, by rfl⟩)

end MisterMorph
